import Mathlib

/-!
Verification development for `mahimahi/bbr_experiment.py`.

The file shallowly embeds the three parts of the program that the spec's
testable properties talk about:

* the trace-synthesis algorithm `_generate_trace` (lines 58-82), an
  error-diffusion quantizer that turns a fractional Mbps target into a
  per-millisecond integer packet count;
* the log parser `_parse_mahimahi_log` (lines 129-143), which pulls four
  fixed-position numeric tokens out of the emulator's diagnostic output;
* the orchestrator `main` (lines 204-288), whose control flow (server
  start, listen polling, client start/join, server exit-code check,
  shutdown event, bounded server join, result-queue drain, event clear,
  log parse) is modelled as a deterministic event trace parameterised by
  an abstract environment describing the behaviour of the external world
  (poll outcomes, worker liveness and exit codes, queue contents, log
  text).

Python floats are modelled as rationals, Python ints as `Int`/`Nat`, and
raised exceptions / `sys.exit` as explicit outcomes.
-/

namespace BBRExperiment

/-- Python `int()` applied to a fractional value truncates toward zero. -/
def pyInt (q : ℚ) : ℤ := if 0 ≤ q then ⌊q⌋ else ⌈q⌉

/-- `bits_per_packet = 12000` (line 62); the packet size used by the trace
synthesizer is this hard-coded constant, not the `--size` flag. -/
def bitsPerPacket : ℕ := 12000

/-- `low_avg = int((throughput) / (bits_per_packet / 1000))` (line 63).
`bits_per_packet / 1000` is Python-2 integer division of two ints (= 12);
`throughput` is a float, so the outer division is exact division. -/
def lowAvg (t : ℚ) : ℤ := pyInt (t / ((bitsPerPacket / 1000 : ℕ) : ℚ))

/-- `high_avg = low_avg + 1` (line 64). -/
def highAvg (t : ℚ) : ℤ := lowAvg t + 1

/-- `low_err = throughput - (low_avg * 12)` (line 65), in kilobits per
millisecond (one packet = 12 kilobits). -/
def lowErr (t : ℚ) : ℚ := t - (lowAvg t : ℚ) * 12

/-- `high_err = throughput - (high_avg * 12)` (line 66). -/
def highErr (t : ℚ) : ℚ := t - (highAvg t : ℚ) * 12

/-- Value of `accumulated_err` after `n` iterations of the
per-millisecond loop (lines 70-79): it starts at 0, and each tick adds
`high_err` when `accumulated_err >= abs(high_err)` held at that tick and
`low_err` otherwise. -/
def traceAcc (t : ℚ) : ℕ → ℚ
  | 0 => 0
  | n + 1 =>
      if |highErr t| ≤ traceAcc t n then traceAcc t n + highErr t
      else traceAcc t n + lowErr t

/-- `num_packets` emitted at 0-based tick `n` (lines 74-79): `high_avg`
when `accumulated_err >= abs(high_err)` held entering the tick, else
`low_avg`. -/
def countAt (t : ℚ) (n : ℕ) : ℤ :=
  if |highErr t| ≤ traceAcc t n then highAvg t else lowAvg t

/-- Total number of packets written over the first `n` millisecond ticks
of one trace file. -/
def totalPackets (t : ℚ) (n : ℕ) : ℤ := ((List.range n).map (countAt t)).sum

/-- Content of one generated trace file for `seconds * 1000` ticks
(lines 68-82): for each tick, `num_packets` copies of the line holding
the 1-based millisecond timestamp; `range(num_packets)` runs zero times
when the count is not positive, hence `Int.toNat`. -/
def traceFileContent (seconds : ℕ) (t : ℚ) : String :=
  String.join ((List.range (seconds * 1000)).map fun ms =>
    String.join (List.replicate (countAt t ms).toNat (toString (ms + 1) ++ "\n")))

/-- `_generate_trace` writes the `.up` and the `.down` file by running the
same deterministic loop once per file (line 68); both files therefore
hold the same content, a function of `(seconds, throughput)` only. -/
def generateTraceFiles (seconds : ℕ) (t : ℚ) : String × String :=
  (traceFileContent seconds t, traceFileContent seconds t)

/- ### Facts about the error-diffusion loop -/

lemma lowAvg_eq_floor (t : ℚ) (ht : 0 < t) : lowAvg t = ⌊t / 12⌋ := by
  have h12 : ((bitsPerPacket / 1000 : ℕ) : ℚ) = 12 := by norm_num [bitsPerPacket]
  unfold lowAvg pyInt
  rw [h12, if_pos (by positivity)]

lemma lowErr_bounds (t : ℚ) (ht : 0 < t) : 0 ≤ lowErr t ∧ lowErr t < 12 := by
  have hfl := lowAvg_eq_floor t ht
  have h1 : ((⌊t / 12⌋ : ℤ) : ℚ) ≤ t / 12 := Int.floor_le (t / 12)
  have h2 : t / 12 < (⌊t / 12⌋ : ℚ) + 1 := Int.lt_floor_add_one (t / 12)
  have h3 : t / 12 * 12 = t := div_mul_cancel₀ t (by norm_num)
  constructor
  · unfold lowErr
    rw [hfl]
    nlinarith [mul_le_mul_of_nonneg_right h1 (by norm_num : (0:ℚ) ≤ 12)]
  · unfold lowErr
    rw [hfl]
    nlinarith [mul_lt_mul_of_pos_right h2 (by norm_num : (0:ℚ) < 12)]

lemma highErr_eq (t : ℚ) : highErr t = lowErr t - 12 := by
  unfold highErr lowErr highAvg
  push_cast
  ring

lemma abs_highErr (t : ℚ) (ht : 0 < t) : |highErr t| = 12 - lowErr t := by
  have hb := lowErr_bounds t ht
  have h := highErr_eq t
  rw [abs_of_neg (by linarith)]
  linarith

lemma traceAcc_bounds (t : ℚ) (ht : 0 < t) :
    ∀ n, 0 ≤ traceAcc t n ∧ traceAcc t n < 12 := by
  intro n
  induction n with
  | zero => simp [traceAcc]
  | succ n ih =>
      obtain ⟨hle, hlt⟩ := lowErr_bounds t ht
      have habs := abs_highErr t ht
      have hhe := highErr_eq t
      simp only [traceAcc]
      by_cases h : |highErr t| ≤ traceAcc t n
      · rw [if_pos h]
        rw [habs] at h
        constructor <;> linarith [ih.1, ih.2]
      · rw [if_neg h]
        rw [habs] at h
        push_neg at h
        constructor <;> linarith [ih.1, ih.2]

lemma traceAcc_step (t : ℚ) (n : ℕ) :
    traceAcc t (n + 1) = traceAcc t n + (t - 12 * (countAt t n : ℚ)) := by
  simp only [traceAcc, countAt]
  by_cases h : |highErr t| ≤ traceAcc t n
  · rw [if_pos h, if_pos h]
    unfold highErr highAvg
    push_cast
    ring
  · rw [if_neg h, if_neg h]
    unfold lowErr
    ring

lemma traceAcc_closed (t : ℚ) :
    ∀ n : ℕ, traceAcc t n = n * t - 12 * (totalPackets t n : ℚ) := by
  intro n
  induction n with
  | zero => simp [traceAcc, totalPackets]
  | succ n ih =>
      have htot : totalPackets t (n + 1) = totalPackets t n + countAt t n := by
        unfold totalPackets
        rw [List.range_succ, List.map_append, List.sum_append]
        simp
      rw [traceAcc_step, ih, htot]
      push_cast
      ring

/- ### Claim theorems for the trace synthesizer -/

/-- C1: for every integer duration `d > 0` seconds and every rational
target bitrate `t > 0` Mbps, the total packet count of the synthesized
trace times the 12000-bit packet size is within one packet's bit-size of
the ideal total `t * d * 1000000` bits. -/
theorem trace_total_bits_within_one_packet
    (d : ℕ) (t : ℚ) (hd : 0 < d) (ht : 0 < t) :
    |12000 * (totalPackets t (d * 1000) : ℚ) - t * d * 1000000| ≤ 12000 := by
  have hb := traceAcc_bounds t ht (d * 1000)
  have hc := traceAcc_closed t (d * 1000)
  rw [hc] at hb
  rw [abs_le]
  push_cast at hb ⊢
  constructor <;> nlinarith [hb.1, hb.2]

/-- C1 witness: the bound instantiated at `d = 1` second, `t = 5` Mbps. -/
theorem trace_total_bits_within_one_packet_w :
    0 < 1 ∧ (0:ℚ) < 5 ∧
    |12000 * (totalPackets 5 (1 * 1000) : ℚ) - 5 * (1:ℕ) * 1000000| ≤ 12000 :=
  ⟨by norm_num, by norm_num,
    trace_total_bits_within_one_packet 1 5 (by norm_num) (by norm_num)⟩

/-- C2: at every millisecond tick the loop emits exactly `low_avg` or
`low_avg + 1` packets, where `low_avg = ⌊t/12⌋`, and the accumulated
error counter lies in `[0, 12)` kilobits (i.e. within 12000 bits) after
every tick. -/
theorem per_tick_count_low_or_high (t : ℚ) (ht : 0 < t) (n : ℕ) :
    (countAt t n = lowAvg t ∨ countAt t n = lowAvg t + 1) ∧
    lowAvg t = ⌊t / 12⌋ ∧
    0 ≤ traceAcc t (n + 1) ∧ traceAcc t (n + 1) < 12 := by
  refine ⟨?_, lowAvg_eq_floor t ht,
    (traceAcc_bounds t ht (n + 1)).1, (traceAcc_bounds t ht (n + 1)).2⟩
  unfold countAt highAvg
  by_cases h : |highErr t| ≤ traceAcc t n
  · rw [if_pos h]
    right
    rfl
  · rw [if_neg h]
    left
    rfl

/-- C2 witness: the per-tick property instantiated at `t = 5`, tick 0. -/
theorem per_tick_count_low_or_high_w :
    (0:ℚ) < 5 ∧
    ((countAt 5 0 = lowAvg 5 ∨ countAt 5 0 = lowAvg 5 + 1) ∧
      lowAvg 5 = ⌊(5:ℚ) / 12⌋ ∧
      0 ≤ traceAcc 5 1 ∧ traceAcc 5 1 < 12) :=
  ⟨by norm_num, per_tick_count_low_or_high 5 (by norm_num) 0⟩

/- ### The mahimahi log parser (`_parse_mahimahi_log`, lines 129-143) -/

/-- Python `str.split(sep)` with an explicit one-character separator:
splits on every occurrence and keeps empty pieces, so the result is never
empty (`""` splits to `[""]`). -/
def splitOnChar (sep : Char) : List Char → List (List Char)
  | [] => [[]]
  | c :: cs =>
      match splitOnChar sep cs with
      | [] => if c = sep then [[], []] else [[c]]
      | h :: rest => if c = sep then [] :: h :: rest else (c :: h) :: rest

/-- Read a maximal run of decimal digits, returning the accumulated value,
the number of digits consumed, and the rest of the input. -/
def readDigitsAux : List Char → ℕ × ℕ → ℕ × ℕ × List Char
  | [], (v, k) => (v, k, [])
  | c :: cs, (v, k) =>
      if c.isDigit then readDigitsAux cs (v * 10 + (c.toNat - 48), k + 1)
      else (v, k, c :: cs)

/-- Model of Python `float(token)` on a whitespace-free token: optional
sign, then digits with an optional fractional part (at least one digit
overall), then an optional exponent part.  Returns `none` exactly on the
inputs Python's `float` rejects with `ValueError` (the special spellings
`inf`/`nan`, which never occur as numeric fields of the emulator log, are
not modelled). -/
def pyFloat (s : String) : Option ℚ :=
  let cs0 := s.toList
  let sgn : ℚ := match cs0 with
    | '-' :: _ => -1
    | _ => 1
  let cs1 : List Char := match cs0 with
    | '-' :: r => r
    | '+' :: r => r
    | _ => cs0
  let ipart := readDigitsAux cs1 (0, 0)
  let fpart : ℕ × ℕ × List Char := match ipart.2.2 with
    | '.' :: r => readDigitsAux r (0, 0)
    | _ => (0, 0, ipart.2.2)
  if ipart.2.1 = 0 ∧ fpart.2.1 = 0 then none
  else
    let mant : ℚ := sgn * ((ipart.1 : ℚ) + (fpart.1 : ℚ) / (10 : ℚ) ^ fpart.2.1)
    match fpart.2.2 with
    | [] => some mant
    | 'e' :: r =>
        let esgn : ℤ := match r with
          | '-' :: _ => -1
          | _ => 1
        let r1 : List Char := match r with
          | '-' :: r2 => r2
          | '+' :: r2 => r2
          | _ => r
        let epart := readDigitsAux r1 (0, 0)
        if epart.2.1 = 0 then none
        else if epart.2.2 = [] then some (mant * (10 : ℚ) ^ (esgn * (epart.1 : ℤ)))
        else none
    | 'E' :: r =>
        let esgn : ℤ := match r with
          | '-' :: _ => -1
          | _ => 1
        let r1 : List Char := match r with
          | '-' :: r2 => r2
          | '+' :: r2 => r2
          | _ => r
        let epart := readDigitsAux r1 (0, 0)
        if epart.2.1 = 0 then none
        else if epart.2.2 = [] then some (mant * (10 : ℚ) ^ (esgn * (epart.1 : ℤ)))
        else none
    | _ => none

/-- `output.split('\n')[li].split(' ')[ti]`: the `ti`-th (0-based)
space-delimited token of the `li`-th line of the raw output; `none` when
the line or the token does not exist (Python raises `IndexError`). -/
def tokenAt (out : String) (li ti : ℕ) : Option (List Char) :=
  ((splitOnChar '\n' out.toList).get? li).bind fun l =>
    (splitOnChar ' ' l).get? ti

/-- `_parse_mahimahi_log` after the subprocess call (lines 137-143): split
the output on newlines, then read `float(output[0].split(' ')[2])`,
`float(output[1].split(' ')[2])`, `float(output[2].split(' ')[5])`,
`float(output[3].split(' ')[4])` in that order; any missing line, missing
token or non-numeric token raises (modelled as `none`), otherwise the
4-tuple `(capacity, goodput, q_delay, s_delay)` is returned. -/
def parseMahimahiLog (out : String) : Option (ℚ × ℚ × ℚ × ℚ) :=
  (tokenAt out 0 2).bind fun c0 => (pyFloat ⟨c0⟩).bind fun capacity =>
  (tokenAt out 1 2).bind fun c1 => (pyFloat ⟨c1⟩).bind fun goodput =>
  (tokenAt out 2 5).bind fun c2 => (pyFloat ⟨c2⟩).bind fun q_delay =>
  (tokenAt out 3 4).bind fun c3 => (pyFloat ⟨c3⟩).bind fun s_delay =>
  some (capacity, goodput, q_delay, s_delay)

/-- C9: the parser returns a record exactly when the 3rd token of line 1,
the 3rd token of line 2, the 6th token of line 3 and the 5th token of
line 4 all exist and are numeric, and in that case the four fields are
those tokens' numeric values; it fails whenever one of the designated
lines is absent or its designated token is missing or non-numeric. -/
theorem log_parser_fixed_positions (out : String) :
    (∀ c g q s, parseMahimahiLog out = some (c, g, q, s) →
      ((tokenAt out 0 2).bind (fun tk => pyFloat ⟨tk⟩) = some c ∧
       (tokenAt out 1 2).bind (fun tk => pyFloat ⟨tk⟩) = some g ∧
       (tokenAt out 2 5).bind (fun tk => pyFloat ⟨tk⟩) = some q ∧
       (tokenAt out 3 4).bind (fun tk => pyFloat ⟨tk⟩) = some s)) ∧
    (parseMahimahiLog out = none ↔
      ((tokenAt out 0 2).bind (fun tk => pyFloat ⟨tk⟩) = none ∨
       (tokenAt out 1 2).bind (fun tk => pyFloat ⟨tk⟩) = none ∨
       (tokenAt out 2 5).bind (fun tk => pyFloat ⟨tk⟩) = none ∨
       (tokenAt out 3 4).bind (fun tk => pyFloat ⟨tk⟩) = none)) := by
  have hassoc : parseMahimahiLog out =
      ((tokenAt out 0 2).bind fun tk => pyFloat ⟨tk⟩).bind (fun capacity =>
      ((tokenAt out 1 2).bind fun tk => pyFloat ⟨tk⟩).bind (fun goodput =>
      ((tokenAt out 2 5).bind fun tk => pyFloat ⟨tk⟩).bind (fun q_delay =>
      ((tokenAt out 3 4).bind fun tk => pyFloat ⟨tk⟩).bind (fun s_delay =>
      some (capacity, goodput, q_delay, s_delay))))) := by
    simp only [parseMahimahiLog, Option.bind_assoc]
  rw [hassoc]
  rcases h0 : (tokenAt out 0 2).bind (fun tk => pyFloat ⟨tk⟩) with _ | v0 <;>
  rcases h1 : (tokenAt out 1 2).bind (fun tk => pyFloat ⟨tk⟩) with _ | v1 <;>
  rcases h2 : (tokenAt out 2 5).bind (fun tk => pyFloat ⟨tk⟩) with _ | v2 <;>
  rcases h3 : (tokenAt out 3 4).bind (fun tk => pyFloat ⟨tk⟩) with _ | v3 <;>
  simp [h0, h1, h2, h3]

/-- Sample emulator output used by the closed witnesses below: four lines
whose designated tokens are the numerals 1, 2, 3 and 4. -/
def sampleLog : String := "a b 1 c\na b 2 c\na b c d e 3\na b c d 4"

lemma charOne_toNat : ('1').toNat = 49 := rfl

lemma charTwo_toNat : ('2').toNat = 50 := rfl

lemma charThree_toNat : ('3').toNat = 51 := rfl

lemma charFour_toNat : ('4').toNat = 52 := rfl

lemma parse_sampleLog : parseMahimahiLog sampleLog = some (1, 2, 3, 4) := by
  norm_num +decide [parseMahimahiLog, tokenAt, splitOnChar, pyFloat, readDigitsAux,
    sampleLog, String.toList, List.get?, Option.bind, charOne_toNat, charTwo_toNat,
    charThree_toNat, charFour_toNat]

/-- C9 witness: on the sample log the parser succeeds and the theorem's
conclusion holds at the concrete tokens. -/
theorem log_parser_fixed_positions_w :
    parseMahimahiLog sampleLog = some (1, 2, 3, 4) ∧
    ((tokenAt sampleLog 0 2).bind (fun tk => pyFloat ⟨tk⟩) = some 1 ∧
     (tokenAt sampleLog 1 2).bind (fun tk => pyFloat ⟨tk⟩) = some 2 ∧
     (tokenAt sampleLog 2 5).bind (fun tk => pyFloat ⟨tk⟩) = some 3 ∧
     (tokenAt sampleLog 3 4).bind (fun tk => pyFloat ⟨tk⟩) = some 4) :=
  ⟨parse_sampleLog, (log_parser_fixed_positions sampleLog).1 1 2 3 4 parse_sampleLog⟩

/- ### The orchestrator (`main`, lines 204-288) -/

/-- Abstract environment for one orchestrator run: the parsed flags plus
the behaviour of the external world (how many listen polls fail before
the server is observed listening, whether the server worker is still
alive after the client join and with what exit code otherwise, whether
the client's emulator pipeline call raises, the contents of the server's
result queue, and the text sitting in the mahimahi log). -/
structure Env where
  time : ℕ
  lossArg : ℚ
  port : ℕ
  cc : String
  outputFile : String
  rtt : ℕ
  bw : ℚ
  size : ℕ
  tup : Option String
  tdown : Option String
  headless : Bool
  failedPolls : ℕ
  serverAlive : Bool
  serverExit : ℤ
  clientFails : Bool
  queue : List (String × Option String)
  logLines : String

/-- Line 125: the only processing the loss flag receives is division by
100 (`Flags.parsed_args[Flags.LOSS] / 100.0`); no range check exists. -/
def parsedLoss (raw : ℚ) : ℚ := raw / 100

/-- Exit status of the client worker process: `_run_experiment` (lines
197-201) wraps the emulator pipeline in `subprocess.check_call`; on any
exception it calls `sys.exit(-1)`, which terminates only the worker
process that runs it, with a non-zero status.  On success the worker
returns normally (status 0). -/
def clientExitCode (env : Env) : ℤ := if env.clientFails then -1 else 0

/-- Observable steps of the orchestrator, in program order. -/
inductive Ev where
  | genTrace : Ev
  | startServer : Ev
  | poll : Bool → Ev
  | startClient : Ev
  | clientWorkerExit : ℤ → Ev
  | joinClient : Ev
  | setSignal : Ev
  | joinServer : Ev
  | drain : String → Option String → Ev
  | raiseEv : String → Ev
  | closeQueue : Ev
  | clearSignal : Ev
  | parseLog : Ev
  | sysExit : ℤ → Ev
  deriving DecidableEq

/-- How the orchestrator process ends: `sys.exit(code)`, an uncaught
exception re-raised from the result queue, or an uncaught parse error
from `_parse_mahimahi_log` (both of the latter give the Python process a
non-zero status). -/
inductive Outcome where
  | exit : ℤ → Outcome
  | raise : String → Outcome
  | parseError : Outcome
  deriving DecidableEq

/-- The drain loop (lines 256-260): pop entries while the queue is
non-empty; an entry whose exception slot is non-`None` is raised at once
(ending the loop and the run), otherwise its result is logged and
draining continues.  Returns the drain events and the raised error, if
any. -/
def drainTrace : List (String × Option String) → List Ev × Option String
  | [] => ([], none)
  | (r, some e) :: _ => ([Ev.drain r (some e)], some e)
  | (r, none) :: rest => ((Ev.drain r none) :: (drainTrace rest).1, (drainTrace rest).2)

/-- Lines 219-220: the trace files are generated only when neither trace
path was supplied. -/
def tracePart (env : Env) : List Ev :=
  if env.tup = none ∧ env.tdown = none then [Ev.genTrace] else []

/-- Events up to and including the client join (lines 219-240): optional
trace generation, server start, the listen-poll loop of
`_wait_for_server_start` (the `time.sleep` calls are not modelled), the
client start, the client worker's own termination, and the blocking
client join. -/
def preTrace (env : Env) : List Ev :=
  tracePart env ++ [Ev.startServer] ++ List.replicate env.failedPolls (Ev.poll false)
    ++ [Ev.poll true, Ev.startClient, Ev.clientWorkerExit (clientExitCode env),
        Ev.joinClient]

/-- Lines 247-265 once the server check has passed: signal shutdown, join
the server with a 10-second bound, drain the queue (raising the first
drained error), close the queue, clear the event, parse the log (an
unparsable log raises).  The final result printing, optional output-file
append and trace cleanup (lines 266-288) only perform I/O and are
omitted; after them the process exits 0. -/
def afterCheck (env : Env) : List Ev × Outcome :=
  match drainTrace env.queue with
  | (evs, some e) =>
      ([Ev.setSignal, Ev.joinServer] ++ evs ++ [Ev.raiseEv e], Outcome.raise e)
  | (evs, none) =>
      match parseMahimahiLog env.logLines with
      | none =>
          ([Ev.setSignal, Ev.joinServer] ++ evs
            ++ [Ev.closeQueue, Ev.clearSignal, Ev.parseLog, Ev.raiseEv "ParseError"],
           Outcome.parseError)
      | some _ =>
          ([Ev.setSignal, Ev.joinServer] ++ evs
            ++ [Ev.closeQueue, Ev.clearSignal, Ev.parseLog],
           Outcome.exit 0)

/-- Lines 241-249: after the client join, if the server worker is no
longer alive and its exit code is non-zero, `sys.exit(-1)`; otherwise
continue with the shutdown sequence.  The client worker's exit code is
never consulted. -/
def finishRun (env : Env) : List Ev × Outcome :=
  if env.serverAlive = false ∧ env.serverExit ≠ 0 then
    ([Ev.sysExit (-1)], Outcome.exit (-1))
  else afterCheck env

/-- One full orchestrator run as an event trace plus an outcome. -/
def mainRun (env : Env) : List Ev × Outcome :=
  (preTrace env ++ (finishRun env).1, (finishRun env).2)

/-- Line 220: `_generate_trace(Flags.parsed_args[Flags.TIME], bw)` — the
synthesizer receives only the duration and the bandwidth; the `--size`
flag is not passed. -/
def synthesizeForRun (env : Env) : String × String :=
  generateTraceFiles env.time env.bw

/- ### Positional helpers over event traces -/

/-- Index of the first occurrence of `x` in `t` (= `t.length` when `x` is
absent). -/
def idxOf (x : Ev) : List Ev → ℕ
  | [] => 0
  | y :: ys => if y = x then 0 else idxOf x ys + 1

/-- Number of occurrences of `x` in `t`. -/
def cnt (x : Ev) : List Ev → ℕ
  | [] => 0
  | y :: ys => (if y = x then 1 else 0) + cnt x ys

lemma idxOf_append_of_not_mem (x : Ev) {l1 : List Ev} (l2 : List Ev)
    (h : x ∉ l1) : idxOf x (l1 ++ l2) = l1.length + idxOf x l2 := by
  induction l1 with
  | nil => simp [idxOf]
  | cons y ys ih =>
      have hyx : y ≠ x := fun e => h (e ▸ List.mem_cons_self y ys)
      have hx : x ∉ ys := fun hm => h (List.mem_cons_of_mem _ hm)
      simp [idxOf, hyx, ih hx]
      omega

lemma idxOf_append_of_mem (x : Ev) {l1 : List Ev} (l2 : List Ev)
    (h : x ∈ l1) : idxOf x (l1 ++ l2) = idxOf x l1 := by
  induction l1 with
  | nil => cases h
  | cons y ys ih =>
      by_cases hyx : y = x
      · simp [idxOf, hyx]
      · rcases List.mem_cons.mp h with h1 | h2
        · exact absurd h1.symm hyx
        · simp [idxOf, hyx, ih h2]

lemma idxOf_lt_length {x : Ev} {l : List Ev} (h : x ∈ l) :
    idxOf x l < l.length := by
  induction l with
  | nil => cases h
  | cons y ys ih =>
      by_cases hyx : y = x
      · simp [idxOf, hyx]
      · rcases List.mem_cons.mp h with h1 | h2
        · exact absurd h1.symm hyx
        · have := ih h2
          simp only [idxOf, if_neg hyx, List.length_cons]
          omega

lemma cnt_append (x : Ev) (l1 l2 : List Ev) :
    cnt x (l1 ++ l2) = cnt x l1 + cnt x l2 := by
  induction l1 with
  | nil => simp [cnt]
  | cons y ys ih => simp [cnt, ih]; omega

lemma cnt_eq_zero_of_not_mem {x : Ev} {l : List Ev} (h : x ∉ l) :
    cnt x l = 0 := by
  induction l with
  | nil => simp [cnt]
  | cons y ys ih =>
      have hyx : y ≠ x := fun e => h (e ▸ List.mem_cons_self y ys)
      have hx : x ∉ ys := fun hm => h (List.mem_cons_of_mem _ hm)
      simp [cnt, hyx, ih hx]

/-- Every event produced by the drain loop is a `drain` event. -/
lemma drainTrace_events (q : List (String × Option String)) :
    ∀ x ∈ (drainTrace q).1, ∃ r e, x = Ev.drain r e := by
  induction q with
  | nil => simp [drainTrace]
  | cons p rest ih =>
      rcases p with ⟨r, e⟩
      cases e with
      | none =>
          intro x hx
          rcases List.mem_cons.mp hx with h1 | h2
          · exact ⟨r, none, h1⟩
          · exact ih x h2
      | some e =>
          intro x hx
          simp only [drainTrace, List.mem_singleton] at hx
          exact ⟨r, some e, hx⟩

lemma not_mem_drainTrace (q : List (String × Option String)) (x : Ev)
    (h : ∀ r e, x ≠ Ev.drain r e) : x ∉ (drainTrace q).1 := by
  intro hx
  obtain ⟨r, e, he⟩ := drainTrace_events q x hx
  exact h r e he

/-- The drain loop finishes without raising iff every queue entry's error
slot is `None`. -/
lemma drainTrace_none_iff (q : List (String × Option String)) :
    (drainTrace q).2 = none ↔ ∀ p ∈ q, p.2 = none := by
  induction q with
  | nil => simp [drainTrace]
  | cons p rest ih =>
      rcases p with ⟨r, e⟩
      cases e with
      | none => simpa [drainTrace] using ih
      | some e => simp [drainTrace]

/- ### Membership facts about the pre-join part of the trace -/

lemma setSignal_not_mem_preTrace (env : Env) : Ev.setSignal ∉ preTrace env := by
  by_cases htr : env.tup = none ∧ env.tdown = none <;>
    simp [preTrace, tracePart, htr, List.mem_replicate]

lemma clearSignal_not_mem_preTrace (env : Env) : Ev.clearSignal ∉ preTrace env := by
  by_cases htr : env.tup = none ∧ env.tdown = none <;>
    simp [preTrace, tracePart, htr, List.mem_replicate]

lemma joinClient_mem_preTrace (env : Env) : Ev.joinClient ∈ preTrace env := by
  by_cases htr : env.tup = none ∧ env.tdown = none <;>
    simp [preTrace, tracePart, htr]

/- ### Claim theorems about the orchestrator -/

/-- C5: in every run, the client worker is started strictly after the
server-listen predicate has been observed true, and the shutdown signal
is set (if at all) strictly after the client join has returned.  (When
`Ev.setSignal` does not occur, its index is the trace length, which still
lies strictly after the always-present client join.) -/
theorem client_start_after_listen_and_signal_after_join (env : Env) :
    idxOf (Ev.poll true) (mainRun env).1 < idxOf Ev.startClient (mainRun env).1 ∧
    idxOf Ev.joinClient (mainRun env).1 < idxOf Ev.setSignal (mainRun env).1 := by
  constructor
  · have hsplit : (mainRun env).1 =
        (tracePart env ++ [Ev.startServer]
          ++ List.replicate env.failedPolls (Ev.poll false)) ++
        ([Ev.poll true, Ev.startClient, Ev.clientWorkerExit (clientExitCode env),
          Ev.joinClient] ++ (finishRun env).1) := by
      simp [mainRun, preTrace, List.append_assoc]
    have hpA : Ev.poll true ∉ tracePart env ++ [Ev.startServer]
        ++ List.replicate env.failedPolls (Ev.poll false) := by
      by_cases htr : env.tup = none ∧ env.tdown = none <;>
        simp [tracePart, htr, List.mem_replicate]
    have hcA : Ev.startClient ∉ tracePart env ++ [Ev.startServer]
        ++ List.replicate env.failedPolls (Ev.poll false) := by
      by_cases htr : env.tup = none ∧ env.tdown = none <;>
        simp [tracePart, htr, List.mem_replicate]
    rw [hsplit, idxOf_append_of_not_mem _ _ hpA, idxOf_append_of_not_mem _ _ hcA]
    simp [idxOf]
  · have hj := joinClient_mem_preTrace env
    have hs := setSignal_not_mem_preTrace env
    have h1 : idxOf Ev.joinClient (mainRun env).1 =
        idxOf Ev.joinClient (preTrace env) := idxOf_append_of_mem _ _ hj
    have h2 : idxOf Ev.setSignal (mainRun env).1 =
        (preTrace env).length + idxOf Ev.setSignal (finishRun env).1 :=
      idxOf_append_of_not_mem _ _ hs
    have h3 := idxOf_lt_length hj
    omega

/-- C8: if the server worker has already died with a non-zero exit code
when the client join returns, the orchestrator exits with `sys.exit(-1)`
and the shutdown signal is never set; if the server is still alive or
exited cleanly, the run proceeds to set the shutdown signal. -/
theorem server_check_gates_shutdown (env : Env) :
    (env.serverAlive = false → env.serverExit ≠ 0 →
      (mainRun env).2 = Outcome.exit (-1) ∧ Ev.setSignal ∉ (mainRun env).1) ∧
    (env.serverAlive = true ∨ env.serverExit = 0 →
      Ev.setSignal ∈ (mainRun env).1) := by
  constructor
  · intro ha hx
    have hcond : env.serverAlive = false ∧ env.serverExit ≠ 0 := ⟨ha, hx⟩
    refine ⟨by simp [mainRun, finishRun, if_pos hcond], ?_⟩
    simp only [mainRun, finishRun, if_pos hcond]
    intro hmem
    rcases List.mem_append.mp hmem with h | h
    · exact setSignal_not_mem_preTrace env h
    · simp at h
  · intro hs
    have hcond : ¬(env.serverAlive = false ∧ env.serverExit ≠ 0) := by
      rcases hs with h | h <;> simp [h]
    simp only [mainRun, finishRun, if_neg hcond]
    refine List.mem_append.mpr (Or.inr ?_)
    rcases hq : drainTrace env.queue with ⟨evs, o⟩
    cases o with
    | some e => simp [afterCheck, hq]
    | none =>
        rcases hp : parseMahimahiLog env.logLines with _ | r <;>
          simp [afterCheck, hq, hp]

/-- C7: the drain loop swallows no error — it completes without raising
iff every queue entry's error slot is `None`, and whenever the drain
raises an error `e` (the first non-`None` error it pops), the
orchestrator run ends by re-raising exactly `e`. -/
theorem drained_errors_reraised (env : Env) :
    ((drainTrace env.queue).2 = none ↔ ∀ p ∈ env.queue, p.2 = none) ∧
    (∀ e, (drainTrace env.queue).2 = some e →
      env.serverAlive = true ∨ env.serverExit = 0 →
      (mainRun env).2 = Outcome.raise e) := by
  refine ⟨drainTrace_none_iff env.queue, ?_⟩
  intro e he hs
  have hcond : ¬(env.serverAlive = false ∧ env.serverExit ≠ 0) := by
    rcases hs with h | h <;> simp [h]
  simp only [mainRun, finishRun, if_neg hcond]
  rcases hq : drainTrace env.queue with ⟨evs, o⟩
  rw [hq] at he
  simp only at he
  subst he
  simp [afterCheck, hq]

/-- C4 (amended): the shutdown signal is set at most once per run and
cleared at most once; whenever the clear happens, the signal was set
exactly once, strictly earlier. -/
theorem shutdown_signal_set_at_most_once (env : Env) :
    cnt Ev.setSignal (mainRun env).1 ≤ 1 ∧
    cnt Ev.clearSignal (mainRun env).1 ≤ 1 ∧
    (Ev.clearSignal ∈ (mainRun env).1 →
      cnt Ev.setSignal (mainRun env).1 = 1 ∧
      idxOf Ev.setSignal (mainRun env).1 < idxOf Ev.clearSignal (mainRun env).1) := by
  have hset0 : cnt Ev.setSignal (preTrace env) = 0 :=
    cnt_eq_zero_of_not_mem (setSignal_not_mem_preTrace env)
  have hclr0 : cnt Ev.clearSignal (preTrace env) = 0 :=
    cnt_eq_zero_of_not_mem (clearSignal_not_mem_preTrace env)
  have hds : Ev.setSignal ∉ (drainTrace env.queue).1 :=
    not_mem_drainTrace _ _ (by intro r e h; cases h)
  have hdc : Ev.clearSignal ∉ (drainTrace env.queue).1 :=
    not_mem_drainTrace _ _ (by intro r e h; cases h)
  by_cases hcond : env.serverAlive = false ∧ env.serverExit ≠ 0
  · refine ⟨?_, ?_, ?_⟩ <;>
      simp only [mainRun, finishRun, if_pos hcond, cnt_append, hset0, hclr0]
    · simp [cnt]
    · simp [cnt]
    · intro hmem
      rcases List.mem_append.mp hmem with h | h
      · exact absurd h (clearSignal_not_mem_preTrace env)
      · simp at h
  · have hmain : (mainRun env).1 = preTrace env ++ (afterCheck env).1 := by
      simp [mainRun, finishRun, if_neg hcond]
    rcases hq : drainTrace env.queue with ⟨evs, o⟩
    rw [hq] at hds hdc
    simp only at hds hdc
    have hcnts : cnt Ev.setSignal evs = 0 := cnt_eq_zero_of_not_mem hds
    have hcntc : cnt Ev.clearSignal evs = 0 := cnt_eq_zero_of_not_mem hdc
    have key : ∀ tail : List Ev,
        (afterCheck env).1 = [Ev.setSignal, Ev.joinServer] ++ evs ++ tail →
        cnt Ev.setSignal tail = 0 → cnt Ev.clearSignal tail ≤ 1 →
        idxOf Ev.clearSignal tail ≥ 0 →
        cnt Ev.setSignal (mainRun env).1 ≤ 1 ∧
        cnt Ev.clearSignal (mainRun env).1 ≤ 1 ∧
        (Ev.clearSignal ∈ (mainRun env).1 →
          cnt Ev.setSignal (mainRun env).1 = 1 ∧
          idxOf Ev.setSignal (mainRun env).1 <
            idxOf Ev.clearSignal (mainRun env).1) := by
      intro tail htail hts htc _
      have hc1 : cnt Ev.setSignal (mainRun env).1 = 1 := by
        rw [hmain, htail]
        simp [cnt_append, hset0, hcnts, hts, cnt]
      have hc2 : cnt Ev.clearSignal (mainRun env).1 ≤ 1 := by
        rw [hmain, htail]
        simp [cnt_append, hclr0, hcntc, cnt]
        omega
      refine ⟨by omega, hc2, fun _ => ⟨hc1, ?_⟩⟩
      have hidxs : idxOf Ev.setSignal (mainRun env).1 = (preTrace env).length := by
        rw [hmain, idxOf_append_of_not_mem _ _ (setSignal_not_mem_preTrace env),
          htail]
        simp [idxOf]
      have hidxc : idxOf Ev.clearSignal (mainRun env).1 =
          (preTrace env).length + idxOf Ev.clearSignal (afterCheck env).1 := by
        rw [hmain, idxOf_append_of_not_mem _ _ (clearSignal_not_mem_preTrace env)]
      have hpos : 1 ≤ idxOf Ev.clearSignal (afterCheck env).1 := by
        rw [htail]
        simp [idxOf]
      omega
    cases o with
    | some e =>
        have haft : (afterCheck env).1 =
            [Ev.setSignal, Ev.joinServer] ++ evs ++ [Ev.raiseEv e] := by
          simp [afterCheck, hq]
        exact key [Ev.raiseEv e] haft (by simp [cnt]) (by simp [cnt]) (by omega)
    | none =>
        rcases hp : parseMahimahiLog env.logLines with _ | r
        · have haft : (afterCheck env).1 = [Ev.setSignal, Ev.joinServer] ++ evs
              ++ [Ev.closeQueue, Ev.clearSignal, Ev.parseLog,
                  Ev.raiseEv "ParseError"] := by
            simp [afterCheck, hq, hp]
          exact key _ haft (by simp [cnt]) (by simp [cnt]) (by omega)
        · have haft : (afterCheck env).1 = [Ev.setSignal, Ev.joinServer] ++ evs
              ++ [Ev.closeQueue, Ev.clearSignal, Ev.parseLog] := by
            simp [afterCheck, hq, hp]
          exact key _ haft (by simp [cnt]) (by simp [cnt]) (by omega)

/-- C3 (amended): when the emulator pipeline fails, the client worker
process itself exits with the non-zero status of its `sys.exit(-1)`, but
the orchestrator never inspects the client worker's exit code: the run
continues past the join, and its outcome is exactly the outcome it would
have had with a succeeding client. -/
theorem client_failure_not_fatal (env : Env) (h : env.clientFails = true) :
    clientExitCode env = -1 ∧
    Ev.clientWorkerExit (-1) ∈ (mainRun env).1 ∧
    (mainRun env).2 = (mainRun { env with clientFails := false }).2 := by
  refine ⟨by simp [clientExitCode, h], ?_, rfl⟩
  by_cases htr : env.tup = none ∧ env.tdown = none <;>
    simp [mainRun, preTrace, tracePart, htr, clientExitCode, h]

/-- C6 (amended): no configuration validation exists — the loss flag is
only divided by 100, and whatever the loss value or trace-path pairing,
the orchestrator starts the server worker (first or second event of the
run, with nothing before it but trace generation) and later the client
worker. -/
theorem no_config_validation (env : Env) :
    parsedLoss env.lossArg = env.lossArg / 100 ∧
    Ev.startServer ∈ (mainRun env).1 ∧
    Ev.startClient ∈ (mainRun env).1 ∧
    idxOf Ev.startServer (mainRun env).1 ≤ 1 := by
  refine ⟨rfl, ?_, ?_, ?_⟩ <;>
    by_cases htr : env.tup = none ∧ env.tdown = none <;>
      simp [mainRun, preTrace, tracePart, htr, idxOf]

/-- C10: trace synthesis depends only on the configured duration and
bandwidth — two runs agreeing on those two flags produce identical
`(uplink, downlink)` file contents whatever their other flags (in
particular the `--size` packet-size flag, which `_generate_trace` never
receives: it hard-codes 12000 bits per packet) — and within one run the
uplink and the downlink file hold identical bytes. -/
theorem trace_synthesis_deterministic_and_symmetric (e1 e2 : Env)
    (htime : e1.time = e2.time) (hbw : e1.bw = e2.bw) :
    synthesizeForRun e1 = synthesizeForRun e2 ∧
    (synthesizeForRun e1).1 = (synthesizeForRun e1).2 := by
  unfold synthesizeForRun generateTraceFiles
  rw [htime, hbw]
  exact ⟨rfl, rfl⟩

/- ### Concrete environments for the closed witnesses and counterexamples -/

/-- A benign run: no supplied traces, server observed listening at once,
server stays alive, client succeeds, one clean queue entry, parsable
log. -/
def env0 : Env :=
  { time := 1, lossArg := 1/10, port := 5050, cc := "cubic", outputFile := "",
    rtt := 100, bw := 5, size := 1024, tup := none, tdown := none,
    headless := false, failedPolls := 0, serverAlive := true, serverExit := 0,
    clientFails := false, queue := [("served", none)], logLines := sampleLog }

/-- Benign run except that the client's emulator pipeline fails. -/
def envClientFail : Env := { env0 with clientFails := true }

/-- A config the spec calls invalid: loss rate 150% (i.e. 1.5 after the
division by 100) and only an uplink trace path supplied. -/
def envBadConfig : Env :=
  { env0 with lossArg := 150, tup := some "up.trace", tdown := none }

/-- Benign run except the server worker already died with exit code 1. -/
def envServerDead : Env := { env0 with serverAlive := false, serverExit := 1 }

/-- Benign run except the queue carries an error entry after a clean one. -/
def envQueueErr : Env :=
  { env0 with queue := [("served", none), ("fail", some "boom")] }

/-- Benign run with a different `--size` (and `--headless`) flag. -/
def envOtherSize : Env := { env0 with size := 64, headless := true }

/- ### Closed counterexamples and witnesses for the orchestrator claims -/

/-- C3 counterexample: with a failing client pipeline (and a healthy
server, clean queue and parsable log) the orchestrator does NOT abort:
the client worker exits -1, yet the run still sets the shutdown signal
and terminates with exit status 0 — refuting the claim that a client
subprocess failure aborts the entire run with non-zero status. -/
theorem client_failure_run_exits_zero_cx :
    envClientFail.clientFails = true ∧
    Ev.clientWorkerExit (-1) ∈ (mainRun envClientFail).1 ∧
    Ev.setSignal ∈ (mainRun envClientFail).1 ∧
    (mainRun envClientFail).2 = Outcome.exit 0 := by decide

/-- C3 witness for the amended claim, at the concrete failing-client
environment. -/
theorem client_failure_not_fatal_w :
    envClientFail.clientFails = true ∧
    clientExitCode envClientFail = -1 ∧
    Ev.clientWorkerExit (-1) ∈ (mainRun envClientFail).1 ∧
    (mainRun envClientFail).2 = (mainRun { envClientFail with clientFails := false }).2 :=
  ⟨rfl, (client_failure_not_fatal envClientFail rfl).1,
    (client_failure_not_fatal envClientFail rfl).2.1,
    (client_failure_not_fatal envClientFail rfl).2.2⟩

/-- C4 counterexample: in a benign complete run the shutdown signal is
set and then CLEARED again (the `e.clear()` on line 264) before the run
terminates — refuting "once set, never unset". -/
theorem shutdown_signal_cleared_cx :
    Ev.setSignal ∈ (mainRun env0).1 ∧
    Ev.clearSignal ∈ (mainRun env0).1 ∧
    idxOf Ev.setSignal (mainRun env0).1 < idxOf Ev.clearSignal (mainRun env0).1 := by
  decide

/-- C4 witness for the amended claim at the benign environment. -/
theorem shutdown_signal_set_at_most_once_w :
    Ev.clearSignal ∈ (mainRun env0).1 ∧
    (cnt Ev.setSignal (mainRun env0).1 = 1 ∧
      idxOf Ev.setSignal (mainRun env0).1 < idxOf Ev.clearSignal (mainRun env0).1) :=
  ⟨by decide, (shutdown_signal_set_at_most_once env0).2.2 (by decide)⟩

/-- C6 counterexample: a config with loss rate outside [0,1] AND exactly
one trace path supplied is not rejected: no abort happens, the server
worker is the very first event of the run, the client is started, and
the run completes with exit status 0 — refuting the claimed ConfigError
abort before any worker starts. -/
theorem invalid_config_still_starts_workers_cx :
    ¬(parsedLoss envBadConfig.lossArg ≤ 1) ∧
    envBadConfig.tup ≠ none ∧ envBadConfig.tdown = none ∧
    idxOf Ev.startServer (mainRun envBadConfig).1 = 0 ∧
    Ev.startClient ∈ (mainRun envBadConfig).1 ∧
    (mainRun envBadConfig).2 = Outcome.exit 0 := by
  refine ⟨?_, by decide, by decide, by decide, by decide, by decide⟩
  norm_num [parsedLoss, envBadConfig, env0]

/-- C7 witness: a queue with a clean entry followed by an error entry
makes the run end by re-raising exactly that error. -/
theorem drained_errors_reraised_w :
    (drainTrace envQueueErr.queue).2 = some "boom" ∧
    (mainRun envQueueErr).2 = Outcome.raise "boom" :=
  ⟨by decide,
    (drained_errors_reraised envQueueErr).2 "boom" (by decide) (Or.inl rfl)⟩

/-- C8 witness: a server found dead with exit code 1 aborts the run with
`sys.exit(-1)` and no shutdown signal, while the benign run sets it. -/
theorem server_check_gates_shutdown_w :
    (mainRun envServerDead).2 = Outcome.exit (-1) ∧
    Ev.setSignal ∉ (mainRun envServerDead).1 ∧
    Ev.setSignal ∈ (mainRun env0).1 :=
  ⟨((server_check_gates_shutdown envServerDead).1 rfl (by decide)).1,
    ((server_check_gates_shutdown envServerDead).1 rfl (by decide)).2,
    (server_check_gates_shutdown env0).2 (Or.inl rfl)⟩

/-- C10 witness: two configs differing in the packet-size (and headless)
flags but agreeing on duration and bandwidth synthesize identical traces,
with uplink = downlink. -/
theorem trace_synthesis_deterministic_and_symmetric_w :
    env0.size ≠ envOtherSize.size ∧
    env0.time = envOtherSize.time ∧ env0.bw = envOtherSize.bw ∧
    synthesizeForRun env0 = synthesizeForRun envOtherSize ∧
    (synthesizeForRun env0).1 = (synthesizeForRun env0).2 :=
  ⟨by decide, rfl, rfl,
    (trace_synthesis_deterministic_and_symmetric env0 envOtherSize rfl rfl).1,
    (trace_synthesis_deterministic_and_symmetric env0 envOtherSize rfl rfl).2⟩

end BBRExperiment
